import Mathlib

set_option maxRecDepth 8000

/-!
Verification model of `hikari/audit_logs.py`.

Part 1 models the paginated async iterator `AuditLogIterator`
(`__init__`, `__anext__`, `_fill`).  Entry payloads are abstracted by
their ids (natural numbers); the accompanying user / webhook /
integration objects of a page are abstracted as `(id, object)` pairs of
naturals.  Python mappings held in the iterator's `users`, `webhooks`
and `integrations` attributes are heap-allocated objects: the heap is a
list of dictionaries indexed by address, `copy.copy` allocates a fresh
cell, and `dict.update` mutates a cell in place.  This lets the
copy-on-write behaviour of `_fill` be stated exactly.
-/

/-- A Python dictionary with insertion order, as an association list. -/
abbrev Dict := List (Nat × Nat)

/-- Python `d[k] = v`: replace in place if the key exists, else append. -/
def dictSet : Dict → Nat → Nat → Dict
  | [], k, v => [(k, v)]
  | (k0, v0) :: rest, k, v =>
    if k0 = k then (k, v) :: rest else (k0, v0) :: dictSet rest k v

/-- Python `d.update(m)` where `m` is built from the pair list `kvs`
(later pairs win, as in a dict comprehension followed by `update`). -/
def dictUpdate (d : Dict) (kvs : List (Nat × Nat)) : Dict :=
  kvs.foldl (fun m p => dictSet m p.1 p.2) d

/-- Python `d.get(k)`. -/
def dictGet : Dict → Nat → Option Nat
  | [], _ => none
  | (k0, v0) :: rest, k => if k = k0 then some v0 else dictGet rest k

/-- The heap of mapping objects; an address is an index into the list. -/
abbrev Heap := List Dict

/-- Contents of the mapping object at address `j` (empty if dangling). -/
def heapGet : Heap → Nat → Dict
  | [], _ => []
  | d :: _, 0 => d
  | _ :: rest, j + 1 => heapGet rest j

/-- The merge step of `_fill` for one of the three side mappings:
`if new: self.m = copy.copy(self.m); self.m.update(new)`.  When the
page carries no objects nothing happens; otherwise a fresh mapping is
allocated holding the old contents updated with the new pairs, and the
attribute is repointed to the fresh address.  Returns the new heap and
the (possibly new) address held by the attribute. -/
def mergeIn (h : Heap) (addr : Nat) (new : List (Nat × Nat)) : Heap × Nat :=
  if new = [] then (h, addr)
  else (h ++ [dictUpdate (heapGet h addr) new], h.length)

/-- One page returned by the injected `request` function: the raw
`audit_log_entries` (abstracted by id, newest first as returned by the
API) and the optional `users` / `webhooks` / `integrations` payload
lists (abstracted as `(id, object)` pairs). -/
structure Page where
  entries : List Nat
  users : List (Nat × Nat)
  webhooks : List (Nat × Nat)
  integrations : List (Nat × Nat)

/-- The pagination arguments `_fill` passes to the injected request:
the cursor `before` (`None` models the unset `...` sentinel) and the
page size `limit`. -/
structure FetchArgs where
  before : Option String
  limit : Int
deriving DecidableEq, Repr

/-- The injected async `request` function, as a pure oracle: given how
many requests were made before (so a stub can serve successive pages)
and the pagination arguments, it returns a page. -/
abbrev Fetch := Nat → FetchArgs → Page

/-- The mutable state of an `AuditLogIterator`: `_buffer`, `_limit`,
`_front`, the three published side mappings (as heap addresses), plus
the heap itself and the number of fetches performed so far. -/
structure IterState where
  buffer : List Nat
  limit : Option Int
  front : Option String
  heap : Heap
  usersAddr : Nat
  webhooksAddr : Nat
  integrationsAddr : Nat
  fetchCount : Nat

/-- `AuditLogIterator.__init__`: empty buffer, cursor at the optional
`before` argument, optional `limit`, three fresh empty mappings. -/
def initState (before : Option String) (limit : Option Int) : IterState :=
  { buffer := []
    limit := limit
    front := before
    heap := [[], [], []]
    usersAddr := 0
    webhooksAddr := 1
    integrationsAddr := 2
    fetchCount := 0 }

/-- The arguments `_fill` passes to the request:
`before=self._front if self._front is not None else ...` and
`limit=100 if self._limit is None or self._limit > 100 else self._limit`. -/
def fillArgs (s : IterState) : FetchArgs :=
  { before := s.front
    limit := match s.limit with
      | none => 100
      | some l => if l > 100 then 100 else l }

/-- `AuditLogIterator._fill`: perform one request, decrement `_limit`
(when bounded) by the number of returned entries, reverse the returned
entry list and extend `_buffer` with it, then merge any users,
webhooks and integrations into the published mappings copy-on-write. -/
def fill (f : Fetch) (s : IterState) : IterState :=
  let page := f s.fetchCount (fillArgs s)
  let limit1 : Option Int := match s.limit with
    | none => none
    | some l => some (l - page.entries.length)
  let m1 := mergeIn s.heap s.usersAddr page.users
  let m2 := mergeIn m1.1 s.webhooksAddr page.webhooks
  let m3 := mergeIn m2.1 s.integrationsAddr page.integrations
  { buffer := s.buffer ++ page.entries.reverse
    limit := limit1
    front := s.front
    heap := m3.1
    usersAddr := m1.2
    webhooksAddr := m2.2
    integrationsAddr := m3.2
    fetchCount := s.fetchCount + 1 }

/-- The tail of `__anext__`: pop the last buffered payload, deserialize
it, record its id in `_front` and yield it; an empty buffer (IndexError
on `pop`) signals `StopAsyncIteration`, modelled as `none`. -/
def anextPop (s1 : IterState) : Option Nat × IterState :=
  match s1.buffer.getLast? with
  | some e => (some e, { s1 with buffer := s1.buffer.dropLast, front := some (toString e) })
  | none => (none, s1)

/-- `AuditLogIterator.__anext__`: fill when the buffer is empty and
`_limit != 0`, then pop. -/
def anext (f : Fetch) (s : IterState) : Option Nat × IterState :=
  anextPop (if s.buffer = [] ∧ s.limit ≠ some 0 then fill f s else s)

/-- Drive the iterator `n` times, gathering the yielded entries in
order (calls that raise `StopAsyncIteration` contribute nothing). -/
def collect (f : Fetch) : Nat → IterState → List Nat × IterState
  | 0, s => ([], s)
  | n + 1, s =>
    match anext f s with
    | (some e, s1) => let r := collect f n s1; (e :: r.1, r.2)
    | (none, s1) => collect f n s1

/-- The value `_front` holds after the yields `ys` (each yield sets
`_front` to the string of the yielded id), starting from `b`. -/
def lastYieldFront : List Nat → Option String → Option String
  | [], b => b
  | e :: rest, _ => lastYieldFront rest (some (toString e))

/-! ### Concrete fetch stubs used as witnesses and counterexamples -/

/-- A page of 100 entry ids, newest first (descending ids 99..0). -/
def cexPage0 : List Nat := (List.range 100).reverse

/-- A second page of 100 entry ids, newest first (descending 199..100). -/
def cexPage1 : List Nat := ((List.range 100).reverse).map (fun n => n + 100)

/-- A third page of 37 entry ids, newest first (descending 236..200). -/
def cexPage2 : List Nat := ((List.range 37).reverse).map (fun n => n + 200)

/-- A fetch stub serving successive pages of sizes 100, 100, 37, 0. -/
def cexFetchC1 : Fetch := fun i _ =>
  if i = 0 then ⟨cexPage0, [], [], []⟩
  else if i = 1 then ⟨cexPage1, [], [], []⟩
  else if i = 2 then ⟨cexPage2, [], [], []⟩
  else ⟨[], [], [], []⟩

/-- A fetch stub whose every page is empty. -/
def emptyFetch : Fetch := fun _ _ => ⟨[], [], [], []⟩

/-- A fetch stub that ignores the requested page size and serves 100
entries on the first call. -/
def bigPageFetch : Fetch := fun i _ =>
  if i = 0 then ⟨(List.range 100).reverse, [], [], []⟩ else ⟨[], [], [], []⟩

/-- A fetch stub that honours the requested size: it serves exactly the
5 requested entries on the first call. -/
def exactFetch5 : Fetch := fun i _ =>
  if i = 0 then ⟨[5, 4, 3, 2, 1], [], [], []⟩ else ⟨[], [], [], []⟩

/-- A fetch stub serving a single one-entry page. -/
def smallFetch9 : Fetch := fun i _ =>
  if i = 0 then ⟨[3], [], [], []⟩ else ⟨[], [], [], []⟩

/-- Contents of the mapping currently published as `self.users`. -/
def usersDict (s : IterState) : Dict := heapGet s.heap s.usersAddr

/-- Contents of the mapping currently published as `self.webhooks`. -/
def webhooksDict (s : IterState) : Dict := heapGet s.heap s.webhooksAddr

/-- Contents of the mapping currently published as `self.integrations`. -/
def integrationsDict (s : IterState) : Dict := heapGet s.heap s.integrationsAddr

/-- The three published mapping addresses point into the heap. -/
def GoodState (s : IterState) : Prop :=
  s.usersAddr < s.heap.length ∧ s.webhooksAddr < s.heap.length
    ∧ s.integrationsAddr < s.heap.length

/-- First-defined choice between two optional lookups (`x` wins). -/
def firstSome (x y : Option Nat) : Option Nat :=
  match x with
  | some v => some v
  | none => y

/-!
Part 2 models the deserialization layer of `audit_logs.py`:
`AuditLogChangeKey`, `AUDIT_LOG_ENTRY_CONVERTERS`,
`AuditLogChange.deserialize`, the options registry populated by
`register_audit_log_entry_info`, `get_entry_info_entity`, the options
variants, and `AuditLogEntry.deserialize`.  Raw JSON payloads are
`JVal`s; Python collapses an absent key fetched with `.get` and a JSON
`null` into the same `None`, which `pyGet` mirrors.  Fallible lookups
(`payload[k]`, raising `KeyError`) return `Except String` carrying the
missing key.  External scalar coercions (`int`, `str`, enum and entity
deserializers from other hikari modules) are modelled as total
functions / opaque tagged wrappers: only lookup failures are modelled
as failures, matching the code where only subscripting raises KeyError.
-/

/-- A JSON value as received in a raw payload. -/
inductive JVal where
  | null
  | num (n : Int)
  | str (s : String)
  | bool (b : Bool)
  | arr (xs : List JVal)
  | obj (kvs : List (String × JVal))

/-- Association lookup in an object's fields (Python `k in d` order). -/
def alookup : List (String × JVal) → String → Option JVal
  | [], _ => none
  | (k0, v) :: rest, k => if k = k0 then some v else alookup rest k

/-- Python `payload.get(k)`: an absent key and a JSON `null` both
produce Python `None`, modelled as `JVal.null`. -/
def pyGet (p : List (String × JVal)) (k : String) : JVal :=
  match alookup p k with
  | some v => v
  | none => .null

/-- Python `payload[k]`: `KeyError` (carrying the key) when absent. -/
def pyKey (p : List (String × JVal)) (k : String) : Except String JVal :=
  match alookup p k with
  | some v => .ok v
  | none => .error k

/-- Python truthiness of a JSON value. -/
def truthy : JVal → Bool
  | .null => false
  | .num n => n != 0
  | .str s => s != ""
  | .bool b => b
  | .arr xs => !xs.isEmpty
  | .obj kvs => !kvs.isEmpty

/-- The fields of an object value (degenerate on non-objects). -/
def objFields : JVal → List (String × JVal)
  | .obj kvs => kvs
  | _ => []

/-- The items of an array value (degenerate on non-arrays). -/
def arrItems : JVal → List JVal
  | .arr xs => xs
  | _ => []

/-- Python `int(x)` on the shapes the converters receive (total model). -/
def pyInt : JVal → Int
  | .num n => n
  | .bool b => if b then 1 else 0
  | .str s => (s.toInt?).getD 0
  | _ => 0

/-- Python `str(x)` (total model). -/
def pyStr : JVal → String
  | .str s => s
  | .num n => toString n
  | .bool b => if b then "True" else "False"
  | .null => "None"
  | _ => ""

/-- Modelled from the spec: `hikari.bases.Snowflake` is an external
collaborator, "an opaque 64-bit-scale unique identifier type", consumed
only through its `deserialize` contract; it is modelled as an opaque
wrapper of the raw value. -/
structure Snowflake where
  raw : JVal

/-- Modelled from the spec: `Snowflake.deserialize` wraps the raw id. -/
def Snowflake.deserialize (v : JVal) : Snowflake := ⟨v⟩

/-- The members of the `AuditLogChangeKey` enumeration (`COLOUR` is an
alias of `COLOR`, hence a single member). -/
inductive AuditLogChangeKey where
  | NAME | ICON_HASH | SPLASH_HASH | OWNER_ID | REGION | AFK_CHANNEL_ID | AFK_TIMEOUT
  | MFA_LEVEL | VERIFICATION_LEVEL | EXPLICIT_CONTENT_FILTER | DEFAULT_MESSAGE_NOTIFICATIONS
  | VANITY_URL_CODE | ADD_ROLE_TO_MEMBER | REMOVE_ROLE_FROM_MEMBER | PRUNE_DELETE_DAYS
  | WIDGET_ENABLED | WIDGET_CHANNEL_ID | POSITION | TOPIC | BITRATE | PERMISSION_OVERWRITES
  | NSFW | APPLICATION_ID | PERMISSIONS | COLOR | HOIST | MENTIONABLE | ALLOW | DENY
  | INVITE_CODE | CHANNEL_ID | INVITER_ID | MAX_USES | USES | MAX_AGE | TEMPORARY | DEAF
  | MUTE | NICK | AVATAR_HASH | ID | TYPE | ENABLE_EMOTICONS | EXPIRE_BEHAVIOR
  | EXPIRE_GRACE_PERIOD | RATE_LIMIT_PER_USER | SYSTEM_CHANNEL_ID
deriving DecidableEq

/-- The wire value of each `AuditLogChangeKey` member, in definition
order (used by the `str`-enum constructor called from `try_cast`). -/
def changeKeyValues : List (String × AuditLogChangeKey) :=
  [("name", .NAME), ("icon_hash", .ICON_HASH), ("splash_hash", .SPLASH_HASH),
   ("owner_id", .OWNER_ID), ("region", .REGION), ("afk_channel_id", .AFK_CHANNEL_ID),
   ("afk_timeout", .AFK_TIMEOUT), ("mfa_level", .MFA_LEVEL),
   ("verification_level", .VERIFICATION_LEVEL),
   ("explicit_content_filter", .EXPLICIT_CONTENT_FILTER),
   ("default_message_notifications", .DEFAULT_MESSAGE_NOTIFICATIONS),
   ("vanity_url_code", .VANITY_URL_CODE), ("$add", .ADD_ROLE_TO_MEMBER),
   ("$remove", .REMOVE_ROLE_FROM_MEMBER), ("prune_delete_days", .PRUNE_DELETE_DAYS),
   ("widget_enabled", .WIDGET_ENABLED), ("widget_channel_id", .WIDGET_CHANNEL_ID),
   ("position", .POSITION), ("topic", .TOPIC), ("bitrate", .BITRATE),
   ("permission_overwrites", .PERMISSION_OVERWRITES), ("nsfw", .NSFW),
   ("application_id", .APPLICATION_ID), ("permissions", .PERMISSIONS),
   ("color", .COLOR), ("hoist", .HOIST), ("mentionable", .MENTIONABLE),
   ("allow", .ALLOW), ("deny", .DENY), ("code", .INVITE_CODE),
   ("channel_id", .CHANNEL_ID), ("inviter_id", .INVITER_ID), ("max_uses", .MAX_USES),
   ("uses", .USES), ("max_age", .MAX_AGE), ("temporary", .TEMPORARY), ("deaf", .DEAF),
   ("mute", .MUTE), ("nick", .NICK), ("avatar_hash", .AVATAR_HASH), ("id", .ID),
   ("type", .TYPE), ("enable_emoticons", .ENABLE_EMOTICONS),
   ("expire_behavior", .EXPIRE_BEHAVIOR), ("expire_grace_period", .EXPIRE_GRACE_PERIOD),
   ("rate_limit_per_user", .RATE_LIMIT_PER_USER), ("system_channel_id", .SYSTEM_CHANNEL_ID)]

/-- Find an enum member by its wire value. -/
def keyFind : List (String × AuditLogChangeKey) → String → Option AuditLogChangeKey
  | [], _ => none
  | (s0, k0) :: rest, s => if s = s0 then some k0 else keyFind rest s

/-- A change's key: a recognised `AuditLogChangeKey` member, or the raw
payload value when `try_cast` fails. -/
inductive ChangeKey where
  | known (k : AuditLogChangeKey)
  | unknown (v : JVal)

/-- `conversions.try_cast(payload["key"], AuditLogChangeKey, payload["key"])`. -/
def tryCastChangeKey (v : JVal) : ChangeKey :=
  match v with
  | .str s =>
    match keyFind changeKeyValues s with
    | some k => .known k
    | none => .unknown (.str s)
  | v => .unknown v

/-- The value a change field holds after deserialization.  Converted
results from external collaborator classes (enums, role/overwrite maps,
permissions, colors) are opaque tagged wrappers of the raw value. -/
inductive CVal where
  | pynone
  | raw (v : JVal)
  | snow (s : Snowflake)
  | tdSeconds (n : Int)
  | tdDays (n : Int)
  | enumCast (name : String) (v : JVal)
  | roleMap (v : JVal)
  | overwriteMap (v : JVal)
  | intVal (n : Int)
  | strVal (s : String)
  | permVal (v : JVal)
  | colorVal (v : JVal)
  | boolVal (b : Bool)
  | inf

/-- `lambda payload: int(payload) if payload > 0 else float("inf")` —
the MAX_USES converter: zero (or negative) maps to infinity. -/
def maxUsesConv (v : JVal) : CVal :=
  if pyInt v > 0 then .intVal (pyInt v) else .inf

/-- `lambda payload: datetime.timedelta(seconds=payload) if payload > 0
else None` — the MAX_AGE converter: zero (or negative) maps to None. -/
def maxAgeConv (v : JVal) : CVal :=
  if pyInt v > 0 then .tdSeconds (pyInt v) else .pynone

/-- The `AUDIT_LOG_ENTRY_CONVERTERS` table: keys the source maps to a
converter return it, every other member has none.  (`AFK_TIMEOUT` and
`RATE_LIMIT_PER_USER` build `timedelta(seconds=payload)`;
`PRUNE_DELETE_DAYS` builds `timedelta(days=int(payload))` and
`EXPIRE_GRACE_PERIOD` `timedelta(days=payload)`.) -/
def AUDIT_LOG_ENTRY_CONVERTERS : AuditLogChangeKey → Option (JVal → CVal)
  | .OWNER_ID => some (fun v => .snow (Snowflake.deserialize v))
  | .AFK_CHANNEL_ID => some (fun v => .snow (Snowflake.deserialize v))
  | .AFK_TIMEOUT => some (fun v => .tdSeconds (pyInt v))
  | .MFA_LEVEL => some (fun v => .enumCast "GuildMFALevel" v)
  | .VERIFICATION_LEVEL => some (fun v => .enumCast "GuildVerificationLevel" v)
  | .EXPLICIT_CONTENT_FILTER => some (fun v => .enumCast "GuildExplicitContentFilterLevel" v)
  | .DEFAULT_MESSAGE_NOTIFICATIONS => some (fun v => .enumCast "GuildMessageNotificationsLevel" v)
  | .ADD_ROLE_TO_MEMBER => some (fun v => .roleMap v)
  | .REMOVE_ROLE_FROM_MEMBER => some (fun v => .roleMap v)
  | .PRUNE_DELETE_DAYS => some (fun v => .tdDays (pyInt v))
  | .WIDGET_CHANNEL_ID => some (fun v => .snow (Snowflake.deserialize v))
  | .POSITION => some (fun v => .intVal (pyInt v))
  | .BITRATE => some (fun v => .intVal (pyInt v))
  | .PERMISSION_OVERWRITES => some (fun v => .overwriteMap v)
  | .APPLICATION_ID => some (fun v => .snow (Snowflake.deserialize v))
  | .PERMISSIONS => some (fun v => .permVal v)
  | .COLOR => some (fun v => .colorVal v)
  | .ALLOW => some (fun v => .permVal v)
  | .DENY => some (fun v => .permVal v)
  | .CHANNEL_ID => some (fun v => .snow (Snowflake.deserialize v))
  | .INVITER_ID => some (fun v => .snow (Snowflake.deserialize v))
  | .MAX_USES => some maxUsesConv
  | .USES => some (fun v => .intVal (pyInt v))
  | .MAX_AGE => some maxAgeConv
  | .ID => some (fun v => .snow (Snowflake.deserialize v))
  | .TYPE => some (fun v => .strVal (pyStr v))
  | .ENABLE_EMOTICONS => some (fun v => .boolVal (truthy v))
  | .EXPIRE_BEHAVIOR => some (fun v => .enumCast "IntegrationExpireBehaviour" v)
  | .EXPIRE_GRACE_PERIOD => some (fun v => .tdDays (pyInt v))
  | .RATE_LIMIT_PER_USER => some (fun v => .tdSeconds (pyInt v))
  | .SYSTEM_CHANNEL_ID => some (fun v => .snow (Snowflake.deserialize v))
  | _ => none

/-- `AUDIT_LOG_ENTRY_CONVERTERS.get(key)`: an unknown raw key is never
in the table. -/
def convLookup : ChangeKey → Option (JVal → CVal)
  | .known k => AUDIT_LOG_ENTRY_CONVERTERS k
  | .unknown _ => none

/-- An unconverted Python value as a change field (None stays None). -/
def rawToC : JVal → CVal
  | .null => .pynone
  | v => .raw v

/-- An `AuditLogChange` record: resolved key, converted values. -/
structure AuditLogChange where
  key : ChangeKey
  new_value : CVal
  old_value : CVal

/-- `AuditLogChange.deserialize`: read `payload["key"]` (KeyError when
absent), `try_cast` it, `.get` both values, and when a converter is
registered apply it to each value that is not `None`. -/
def AuditLogChange.deserialize (p : List (String × JVal)) : Except String AuditLogChange :=
  match pyKey p "key" with
  | .error e => .error e
  | .ok rawKey =>
    let key := tryCastChangeKey rawKey
    let newValue := pyGet p "new_value"
    let oldValue := pyGet p "old_value"
    match convLookup key with
    | some c =>
      .ok { key := key
            new_value := match newValue with | .null => .pynone | v => c v
            old_value := match oldValue with | .null => .pynone | v => c v }
    | none => .ok { key := key, new_value := rawToC newValue, old_value := rawToC oldValue }

/-- The value a change field ends up with for key `k` and raw value
`v`: `None` for a Python `None`, the converter result when one is
registered, the raw value otherwise. -/
def convApply (k : ChangeKey) (v : JVal) : CVal :=
  match convLookup k with
  | some c => match v with | .null => .pynone | v1 => c v1
  | none => rawToC v

/-- The numeric values of the `AuditLogEventType` members. -/
def audit_log_event_type_values : List Int :=
  [1, 10, 11, 12, 13, 14, 15, 20, 21, 22, 23, 24, 25, 26, 27, 28, 30, 31, 32,
   40, 41, 42, 50, 51, 52, 60, 61, 62, 72, 73, 74, 75, 80, 81, 82]

/-- An entry's action type: a recognised `AuditLogEventType` member
(carried as its numeric value) or the raw payload value. -/
inductive ActionType where
  | known (n : Int)
  | raw (v : JVal)

/-- `conversions.try_cast(payload["action_type"], AuditLogEventType, ...)`. -/
def tryCastEventType (v : JVal) : ActionType :=
  match v with
  | .num n => if n ∈ audit_log_event_type_values then .known n else .raw (.num n)
  | v => .raw v

/-- The numeric value an action type presents to a dict lookup
(`IntEnum` members hash and compare as their integer value). -/
def actionCode : ActionType → Option Int
  | .known n => some n
  | .raw (.num n) => some n
  | .raw _ => none

/-- The options variant classes defined in the module, plus the
`UnrecognisedAuditLogEntryInfo` fallback. -/
inductive InfoClass where
  | channelOverwrite | messagePin | memberPrune | messageBulkDelete
  | messageDelete | memberDisconnect | memberMove | unrecognised
deriving DecidableEq

/-- The `register_audit_log_entry_info(...)` decorator applications, in
module order, each associating a list of event-type values with a
variant class. -/
def auditLogEntryInfoRegistrations : List (List Int × InfoClass) :=
  [([13, 14, 15], .channelOverwrite),
   ([74, 75], .messagePin),
   ([21], .memberPrune),
   ([73], .messageBulkDelete),
   ([72], .messageDelete),
   ([27], .memberDisconnect),
   ([26], .memberMove)]

/-- Python `mapping[t] = cls` on the registry dict. -/
def intDictSet : List (Int × InfoClass) → Int → InfoClass → List (Int × InfoClass)
  | [], k, v => [(k, v)]
  | (k0, v0) :: rest, k, v =>
    if k0 = k then (k, v) :: rest else (k0, v0) :: intDictSet rest k v

/-- The `types` mapping attached to `register_audit_log_entry_info`
after all decorators in the module have run. -/
def entry_info_types : List (Int × InfoClass) :=
  auditLogEntryInfoRegistrations.foldl
    (fun m r => r.1.foldl (fun m1 t => intDictSet m1 t r.2) m) []

/-- Python `types.get(t)`. -/
def assocInt : List (Int × InfoClass) → Int → Option InfoClass
  | [], _ => none
  | (k0, v) :: rest, k => if k = k0 then some v else assocInt rest k

/-- `get_entry_info_entity`: the registered class, or the
`UnrecognisedAuditLogEntryInfo` fallback when none is registered. -/
def get_entry_info_entity (t : Int) : InfoClass :=
  match assocInt entry_info_types t with
  | some c => c
  | none => .unrecognised

/-- The class used to decode an entry's options, given its (already
`try_cast`) action type: non-numeric action types find nothing in the
registry and fall back to the unrecognised variant. -/
def classOfAction (a : ActionType) : InfoClass :=
  match actionCode a with
  | some n => get_entry_info_entity n
  | none => .unrecognised

/-- A `datetime.timedelta`, normalised to total seconds. -/
structure Timedelta where
  totalSeconds : Int

/-- `timedelta(seconds=n)`. -/
def Timedelta.ofSeconds (n : Int) : Timedelta := ⟨n⟩

/-- `timedelta(days=n)`. -/
def Timedelta.ofDays (n : Int) : Timedelta := ⟨n * 86400⟩

/-- Python exception propagation: evaluate `x`; a raised lookup error
aborts, otherwise continue with the value. -/
def exBind {α β : Type} (x : Except String α) (g : α → Except String β) : Except String β :=
  match x with
  | .error e => .error e
  | .ok a => g a

/-- A decoded options record: one constructor per registered variant
(fields in attrs order, inherited fields first), plus the fallback that
keeps the raw payload verbatim. -/
inductive EntryInfo where
  | channelOverwrite (id : Snowflake) (type_ : JVal) (role_name : Option String)
  | messagePin (channel_id message_id : Snowflake)
  | memberPrune (delete_member_days : Timedelta) (members_removed : Int)
  | messageBulkDelete (count : Int)
  | messageDelete (count : Int) (channel_id : Snowflake)
  | memberDisconnect (count : Int)
  | memberMove (count : Int) (channel_id : Snowflake)
  | unrecognised (payload : List (String × JVal))

/-- Modelled from the spec: the `marshaller`-generated `deserialize` of
the registered option variants (`hikari.internal.marshaller` is not
among the sources; per the spec each declared attrib reads its raw key
— a missing required field is a lookup failure propagated to the
caller — and applies its declared deserializer, and the sole
`if_undefined=None` attrib, `role_name`, maps an absent key to None).
`UnrecognisedAuditLogEntryInfo.deserialize`, which is in the source,
stores the raw payload verbatim (`self.__dict__.update(payload)`). -/
def deserializeInfo (c : InfoClass) (kvs : List (String × JVal)) : Except String EntryInfo :=
  match c with
  | .channelOverwrite =>
    exBind (pyKey kvs "id") (fun i =>
      exBind (pyKey kvs "type") (fun t =>
        .ok (.channelOverwrite (Snowflake.deserialize i) t
          (match alookup kvs "role_name" with
           | none => none
           | some v => some (pyStr v)))))
  | .messagePin =>
    exBind (pyKey kvs "channel_id") (fun c1 =>
      exBind (pyKey kvs "message_id") (fun m =>
        .ok (.messagePin (Snowflake.deserialize c1) (Snowflake.deserialize m))))
  | .memberPrune =>
    exBind (pyKey kvs "delete_member_days") (fun d =>
      exBind (pyKey kvs "members_removed") (fun m =>
        .ok (.memberPrune (Timedelta.ofDays (pyInt d)) (pyInt m))))
  | .messageBulkDelete =>
    exBind (pyKey kvs "count") (fun n => .ok (.messageBulkDelete (pyInt n)))
  | .messageDelete =>
    exBind (pyKey kvs "count") (fun n =>
      exBind (pyKey kvs "channel_id") (fun c1 =>
        .ok (.messageDelete (pyInt n) (Snowflake.deserialize c1))))
  | .memberDisconnect =>
    exBind (pyKey kvs "count") (fun n => .ok (.memberDisconnect (pyInt n)))
  | .memberMove =>
    exBind (pyKey kvs "count") (fun n =>
      exBind (pyKey kvs "channel_id") (fun c1 =>
        .ok (.memberMove (pyInt n) (Snowflake.deserialize c1))))
  | .unrecognised => .ok (.unrecognised kvs)

/-- The raw keys whose absence makes `deserializeInfo` fail, per class. -/
def requiredInfoFields : InfoClass → List String
  | .channelOverwrite => ["id", "type"]
  | .messagePin => ["channel_id", "message_id"]
  | .memberPrune => ["delete_member_days", "members_removed"]
  | .messageBulkDelete => ["count"]
  | .messageDelete => ["count", "channel_id"]
  | .memberDisconnect => ["count"]
  | .memberMove => ["count", "channel_id"]
  | .unrecognised => []

/-- The `target_id` attribute: Python `None`, the raw (present but
falsy) payload value, or a parsed `Snowflake`. -/
inductive TargetId where
  | pyNone
  | raw (v : JVal)
  | snow (s : Snowflake)

/-- `if target_id := payload.get("target_id"): target_id =
Snowflake.deserialize(target_id)`: truthy values are parsed, a falsy
non-null value is kept raw, `None` (absent or JSON null) stays None. -/
def targetOf (p : List (String × JVal)) : TargetId :=
  if truthy (pyGet p "target_id") then .snow (Snowflake.deserialize (pyGet p "target_id"))
  else
    match pyGet p "target_id" with
    | .null => .pyNone
    | v => .raw v

/-- A decoded `AuditLogEntry` record. -/
structure AuditLogEntry where
  id : Snowflake
  target_id : TargetId
  changes : List AuditLogChange
  user_id : Snowflake
  action_type : ActionType
  options : Option EntryInfo
  reason : JVal

/-- `payload.get("changes", EMPTY_SEQUENCE)` as a list of items. -/
def changesItems (p : List (String × JVal)) : List JVal :=
  match alookup p "changes" with
  | none => []
  | some v => arrItems v

/-- The list comprehension `[AuditLogChange.deserialize(payload) for
payload in payload.get("changes", ...)]`; the first KeyError aborts. -/
def deserializeChanges : List JVal → Except String (List AuditLogChange)
  | [] => .ok []
  | v :: rest =>
    exBind (AuditLogChange.deserialize (objFields v)) (fun c =>
      exBind (deserializeChanges rest) (fun cs => .ok (c :: cs)))

/-- `AuditLogEntry.deserialize`: `payload["action_type"]` is read first
(KeyError when absent) and `try_cast`; `target_id` is computed from its
truthiness; a present non-null `options` value is decoded by the class
`get_entry_info_entity` returns for the action type; then the `cls(...)`
keyword arguments evaluate the changes comprehension,
`payload["user_id"]` and `payload["id"]` in order. -/
def AuditLogEntry.deserialize (p : List (String × JVal)) : Except String AuditLogEntry :=
  exBind (pyKey p "action_type") (fun rawAction =>
    exBind (match pyGet p "options" with
            | .null => Except.ok (none : Option EntryInfo)
            | v =>
              (deserializeInfo (classOfAction (tryCastEventType rawAction)) (objFields v)).map
                some)
      (fun opts =>
        exBind (deserializeChanges (changesItems p)) (fun chs =>
          exBind (pyKey p "user_id") (fun uid =>
            exBind (pyKey p "id") (fun i =>
              .ok { id := Snowflake.deserialize i
                    target_id := targetOf p
                    changes := chs
                    user_id := Snowflake.deserialize uid
                    action_type := tryCastEventType rawAction
                    options := opts
                    reason := pyGet p "reason" })))))

/-- Whether a deserialization failed (an uncaught lookup error). -/
def isErr {α : Type} : Except String α → Bool
  | .error _ => true
  | .ok _ => false

/-! ### Concrete payloads used as witnesses and counterexamples -/

/-- The spec's message-pin example: `action_type` 74 with a
`channel_id`/`message_id` options block. -/
def pinPayload : List (String × JVal) :=
  [("id", .num 1), ("user_id", .num 2), ("action_type", .num 74),
   ("options", .obj [("channel_id", .str "123"), ("message_id", .str "456")])]

/-- The spec's color change example payload. -/
def colorChangePayload : List (String × JVal) :=
  [("key", .str "color"), ("new_value", .num 16711680), ("old_value", .num 0)]

/-- An entry payload that has `id` and `user_id` but no `action_type`. -/
def missingActionPayload : List (String × JVal) :=
  [("id", .num 1), ("user_id", .num 2)]

/-- An entry payload whose `target_id` is present but the empty string. -/
def emptyTargetPayload : List (String × JVal) :=
  [("id", .num 1), ("user_id", .num 2), ("action_type", .num 1), ("target_id", .str "")]

/-- An entry payload whose `target_id` is present and JSON null. -/
def nullTargetPayload : List (String × JVal) :=
  [("id", .num 1), ("user_id", .num 2), ("action_type", .num 1), ("target_id", .null)]


/-! ### Helper lemmas about the iterator -/

theorem anextPop_concat (s : IterState) (l : List Nat) (x : Nat) (h : s.buffer = l ++ [x]) :
    anextPop s = (some x, { s with buffer := l, front := some (toString x) }) := by
  unfold anextPop
  rw [h, List.getLast?_concat, List.dropLast_concat]

theorem anext_nofill (f : Fetch) (s : IterState) (h : s.buffer ≠ []) :
    anext f s = anextPop s := by
  unfold anext
  rw [if_neg (fun hc => h hc.1)]

theorem anext_fill (f : Fetch) (s : IterState) (h1 : s.buffer = []) (h2 : s.limit ≠ some 0) :
    anext f s = anextPop (fill f s) := by
  unfold anext
  rw [if_pos ⟨h1, h2⟩]

theorem anext_stuck (f : Fetch) (s : IterState) (h1 : s.buffer = []) (h2 : s.limit = some 0) :
    anext f s = (none, s) := by
  unfold anext
  rw [if_neg (fun hc => hc.2 h2)]
  unfold anextPop
  rw [h1]
  rfl

theorem fill_buffer (f : Fetch) (s : IterState) :
    (fill f s).buffer = s.buffer ++ (f s.fetchCount (fillArgs s)).entries.reverse := rfl

theorem fill_front (f : Fetch) (s : IterState) : (fill f s).front = s.front := rfl

theorem fill_fetchCount (f : Fetch) (s : IterState) :
    (fill f s).fetchCount = s.fetchCount + 1 := rfl

theorem anext_exhaust (f : Fetch) (s : IterState) (hb : s.buffer = []) (hl : s.limit ≠ some 0)
    (he : (f s.fetchCount (fillArgs s)).entries = []) : anext f s = (none, fill f s) := by
  rw [anext_fill f s hb hl]
  unfold anextPop
  rw [fill_buffer, hb, he]
  rfl

theorem collect_drain (f : Fetch) (l : List Nat) :
    ∀ s : IterState, s.buffer = l →
    collect f l.length s
      = (l.reverse, { s with buffer := [], front := lastYieldFront l.reverse s.front }) := by
  induction l using List.reverseRecOn with
  | nil =>
    intro s h
    simp only [List.length_nil, collect, List.reverse_nil, lastYieldFront]
    cases s
    simp_all
  | append_singleton l' x ih =>
    intro s h
    have ha : anext f s = (some x, { s with buffer := l', front := some (toString x) }) := by
      rw [anext_nofill f s (by rw [h]; simp), anextPop_concat s l' x h]
    rw [List.length_append, List.length_singleton]
    simp only [collect, ha]
    rw [ih { s with buffer := l', front := some (toString x) } rfl]
    simp [lastYieldFront]

theorem collect_add (f : Fetch) (n m : Nat) : ∀ s : IterState,
    collect f (n + m) s
      = ((collect f n s).1 ++ (collect f m (collect f n s).2).1,
         (collect f m (collect f n s).2).2) := by
  induction n with
  | zero => intro s; simp [collect]
  | succ n ih =>
    intro s
    rw [show n + 1 + m = (n + m) + 1 by omega]
    simp only [collect]
    rcases ha : anext f s with ⟨o, s1⟩
    cases o <;> simp [ih s1]

theorem collect_fill (f : Fetch) (s : IterState) (n : Nat) (hb : s.buffer = [])
    (hl : s.limit ≠ some 0) (hf : (fill f s).buffer ≠ []) :
    collect f (n + 1) s = collect f (n + 1) (fill f s) := by
  simp only [collect]
  rw [anext_fill f s hb hl, ← anext_nofill f (fill f s) hf]

theorem collect_stuck (f : Fetch) : ∀ (k : Nat) (s : IterState), s.buffer = [] →
    s.limit = some 0 → collect f k s = ([], s) := by
  intro k
  induction k with
  | zero => intro s _ _; rfl
  | succ k ih =>
    intro s h1 h2
    simp only [collect, anext_stuck f s h1 h2]
    exact ih s h1 h2

theorem collect_page (f : Fetch) (s : IterState) (p : List Nat) (hb : s.buffer = [])
    (hl : s.limit ≠ some 0) (hp : (f s.fetchCount (fillArgs s)).entries = p) (hne : p ≠ []) :
    collect f p.length s
      = (p, { fill f s with buffer := [], front := lastYieldFront p s.front }) := by
  have hfb : (fill f s).buffer = p.reverse := by rw [fill_buffer, hb, hp]; rfl
  have hfb' : (fill f s).buffer ≠ [] := by
    rw [hfb]; simpa using hne
  obtain ⟨n, hn⟩ : ∃ n, p.length = n + 1 := by
    cases p with
    | nil => exact absurd rfl hne
    | cons a t => exact ⟨t.length, rfl⟩
  rw [hn, collect_fill f s n hb hl hfb', ← hn]
  rw [show p.length = p.reverse.length by simp]
  rw [collect_drain f p.reverse (fill f s) hfb]
  simp [fill_front]

theorem anext_front_none (f : Fetch) (s s1 : IterState) (h : anext f s = (none, s1)) :
    s1.front = s.front := by
  unfold anext anextPop at h
  split at h
  · exact absurd h (by simp)
  · cases h
    split
    · exact fill_front f s
    · rfl

theorem anext_front_some (f : Fetch) (s s1 : IterState) (e : Nat)
    (h : anext f s = (some e, s1)) : s1.front = some (toString e) := by
  unfold anext anextPop at h
  split at h
  next e' heq =>
    rw [Prod.mk.injEq] at h
    obtain ⟨h1, h2⟩ := h
    cases h1
    rw [← h2]
  · exact absurd h (by simp)

theorem collect_front (f : Fetch) : ∀ (n : Nat) (s : IterState),
    (collect f n s).2.front = lastYieldFront (collect f n s).1 s.front := by
  intro n
  induction n with
  | zero => intro s; rfl
  | succ n ih =>
    intro s
    simp only [collect]
    rcases ha : anext f s with ⟨o, s1⟩
    cases o with
    | none =>
      simpa [anext_front_none f s s1 ha] using ih s1
    | some e =>
      simpa [lastYieldFront, anext_front_some f s s1 e ha] using ih s1

/-! ### Claim C1 -/

/-- C1 (counterexample): with a fetch serving pages of sizes
100, 100, 37, 0 (each page newest first), the iterator yields the
entries in the order the pages were returned (newest first within each
page), not in oldest-within-page-first order as the claim states. -/
theorem C1_counterexample :
    (collect cexFetchC1 237 (initState none none)).1 = cexPage0 ++ cexPage1 ++ cexPage2
      ∧ (collect cexFetchC1 237 (initState none none)).1
          ≠ cexPage0.reverse ++ cexPage1.reverse ++ cexPage2.reverse := by
  constructor
  · rfl
  · decide

/-- C1 (amended): for every fetch whose successive pages have sizes
100, 100, 37, 0, iterating with `limit=None` yields exactly 237
entries — each page contributing its entries in the order the page was
returned, i.e. newest-first within the page (the buffer is reversed
and then popped from its end, which restores the payload order) — and
the 238th call performs the empty fetch and signals exhaustion
(`StopAsyncIteration`). -/
theorem C1_paging_yields_237_in_payload_order (f : Fetch) (p0 p1 p2 : List Nat)
    (h0 : ∀ a, (f 0 a).entries = p0) (h1 : ∀ a, (f 1 a).entries = p1)
    (h2 : ∀ a, (f 2 a).entries = p2) (h3 : ∀ a, (f 3 a).entries = [])
    (l0 : p0.length = 100) (l1 : p1.length = 100) (l2 : p2.length = 37) :
    (collect f 237 (initState none none)).1 = p0 ++ p1 ++ p2
      ∧ (anext f (collect f 237 (initState none none)).2).1 = none := by
  have ne0 : p0 ≠ [] := by intro hc; rw [hc] at l0; simp at l0
  have ne1 : p1 ≠ [] := by intro hc; rw [hc] at l1; simp at l1
  have ne2 : p2 ≠ [] := by intro hc; rw [hc] at l2; simp at l2
  have e0 := collect_page f (initState none none) p0 rfl (by simp [initState]) (h0 _) ne0
  set s1 : IterState := { fill f (initState none none) with
    buffer := ([] : List Nat), front := lastYieldFront p0 (initState none none).front }
    with hs1
  have s1lim : s1.limit = none := rfl
  have e1 := collect_page f s1 p1 rfl (by rw [s1lim]; simp) (h1 _) ne1
  set s2 : IterState := { fill f s1 with
    buffer := ([] : List Nat), front := lastYieldFront p1 s1.front } with hs2
  have s2lim : s2.limit = none := rfl
  have e2 := collect_page f s2 p2 rfl (by rw [s2lim]; simp) (h2 _) ne2
  set s3 : IterState := { fill f s2 with
    buffer := ([] : List Nat), front := lastYieldFront p2 s2.front } with hs3
  have s3lim : s3.limit = none := rfl
  have hex : anext f s3 = (none, fill f s3) := anext_exhaust f s3 rfl (by rw [s3lim]; simp) (h3 _)
  have hsum : (237 : Nat) = p0.length + (p1.length + p2.length) := by rw [l0, l1, l2]
  rw [hsum, collect_add, e0]
  dsimp only
  rw [collect_add, e1]
  dsimp only
  rw [e2]
  dsimp only
  rw [hex]
  simp

/-- C1 (witness): the amended theorem applied to the concrete stub. -/
theorem C1_paging_yields_237_in_payload_order_witness :
    (collect cexFetchC1 237 (initState none none)).1 = cexPage0 ++ cexPage1 ++ cexPage2
      ∧ (anext cexFetchC1 (collect cexFetchC1 237 (initState none none)).2).1 = none :=
  C1_paging_yields_237_in_payload_order cexFetchC1 cexPage0 cexPage1 cexPage2
    (fun _ => rfl) (fun _ => rfl) (fun _ => rfl) (fun _ => rfl)
    (by decide) (by decide) (by decide)

/-! ### Claim C2 -/

/-- C2 (counterexample): with an always-empty fetch and `limit=None`,
the very first `__anext__` performs one fetch and signals exhaustion;
a subsequent `__anext__` performs a second fetch (`fetchCount` rises
to 2), contradicting "once signaled, no further fetch is attempted". -/
theorem C2_counterexample :
    (anext emptyFetch (initState none none)).1 = none
      ∧ (anext emptyFetch (initState none none)).2.fetchCount = 1
      ∧ (anext emptyFetch (anext emptyFetch (initState none none)).2).2.fetchCount = 2 :=
  ⟨rfl, rfl, rfl⟩

/-- C2 (amended): exhaustion is not memoized.  From any state with an
empty buffer: when the remaining `_limit` is exactly 0 no fetch occurs
and `StopAsyncIteration` is raised; in every other case — in
particular always when `limit=None` — each further `__anext__` call
performs another fetch, and raises `StopAsyncIteration` again whenever
that fetch returns an empty entry list. -/
theorem C2_exhaustion_refetches (f : Fetch) (s : IterState) (hb : s.buffer = []) :
    (s.limit = some 0 → anext f s = (none, s))
      ∧ (s.limit ≠ some 0 → (f s.fetchCount (fillArgs s)).entries = [] →
          anext f s = (none, fill f s) ∧ (fill f s).fetchCount = s.fetchCount + 1) :=
  ⟨fun h2 => anext_stuck f s hb h2,
   fun h2 h3 => ⟨anext_exhaust f s hb h2 h3, rfl⟩⟩

/-- C2 (witness): after a first exhausted call to the iterator, the
amended theorem applies to the resulting state and shows the second
call fetches again. -/
theorem C2_exhaustion_refetches_witness :
    anext emptyFetch (anext emptyFetch (initState none none)).2
        = (none, fill emptyFetch (anext emptyFetch (initState none none)).2)
      ∧ (fill emptyFetch (anext emptyFetch (initState none none)).2).fetchCount
          = (anext emptyFetch (initState none none)).2.fetchCount + 1 :=
  (C2_exhaustion_refetches emptyFetch (anext emptyFetch (initState none none)).2 rfl).2
    (by decide) rfl

/-! ### Claim C3 -/

/-- C3 (counterexample): with `limit=5` but a fetch stub that ignores
the requested page size and returns a first page of 100 entries, the
iterator does not stop after 5 entries: it yields all 100 buffered
entries. -/
theorem C3_counterexample :
    ((collect bigPageFetch 6 (initState none (some 5))).1).length = 6
      ∧ ((collect bigPageFetch 100 (initState none (some 5))).1).length = 100 :=
  ⟨rfl, rfl⟩

/-- C3 (amended): with `limit=5` and a fetch that honours the
requested page size (the first request asks for 5 and receives exactly
5 entries), iteration yields exactly those 5 entries, then signals
exhaustion without any further fetch (one fetch total, forever); and
in general, whenever the remaining budget is exactly 0 a call to
`__anext__` performs no fetch. -/
theorem C3_limit_five_exact (f : Fetch) (p : List Nat)
    (hp : (f 0 { before := none, limit := 5 }).entries = p) (hl : p.length = 5) :
    (collect f 6 (initState none (some 5))).1 = p
      ∧ (collect f 6 (initState none (some 5))).2.fetchCount = 1
      ∧ (∀ k, collect f k (collect f 6 (initState none (some 5))).2
            = ([], (collect f 6 (initState none (some 5))).2))
      ∧ (∀ s : IterState, s.limit = some 0 → (anext f s).2.fetchCount = s.fetchCount) := by
  have ne : p ≠ [] := by intro hc; rw [hc] at hl; simp at hl
  have e0 := collect_page f (initState none (some 5)) p rfl (by simp [initState]) hp ne
  set s1 : IterState := { fill f (initState none (some 5)) with
    buffer := ([] : List Nat), front := lastYieldFront p (initState none (some 5)).front }
    with hs1
  have s1lim : s1.limit = some 0 := by
    show (fill f (initState none (some 5))).limit = some 0
    show some (5 - ((f 0 (fillArgs (initState none (some 5)))).entries.length : Int)) = some 0
    rw [show fillArgs (initState none (some 5)) = { before := none, limit := 5 } from rfl, hp, hl]
    norm_num
  have hzero : ∀ s : IterState, s.limit = some 0 → (anext f s).2.fetchCount = s.fetchCount := by
    intro s hs
    unfold anext
    rw [if_neg (fun hc => hc.2 hs)]
    unfold anextPop
    rcases hgl : s.buffer.getLast? with _ | e <;> simp [hgl]
  have e1 : collect f 1 s1 = ([], s1) := by
    simp only [collect, anext_stuck f s1 rfl s1lim]
  have h6 : collect f 6 (initState none (some 5)) = (p, s1) := by
    rw [show (6 : Nat) = p.length + 1 by rw [hl], collect_add, e0]
    dsimp only
    rw [e1]
    simp
  rw [h6]
  exact ⟨rfl, rfl, fun k => collect_stuck f k s1 rfl s1lim, hzero⟩

/-- C3 (witness): the amended theorem applied to the concrete
honouring stub. -/
theorem C3_limit_five_exact_witness :
    (collect exactFetch5 6 (initState none (some 5))).1 = [5, 4, 3, 2, 1]
      ∧ (collect exactFetch5 6 (initState none (some 5))).2.fetchCount = 1
      ∧ (∀ k, collect exactFetch5 k (collect exactFetch5 6 (initState none (some 5))).2
            = ([], (collect exactFetch5 6 (initState none (some 5))).2))
      ∧ (∀ s : IterState, s.limit = some 0 →
          (anext exactFetch5 s).2.fetchCount = s.fetchCount) :=
  C3_limit_five_exact exactFetch5 [5, 4, 3, 2, 1] rfl rfl

/-! ### Claim C9 -/

/-- C9 (confirmed): after any number of `__anext__` calls on an
iterator built with cursor `b` and budget `lim`, the arguments the
next `_fill` would pass to the injected request are: as cursor, the id
of the last entry yielded so far (falling back to the constructor's
`before` value `b`, which is unset/`none` when none was given); as
page size, the remaining budget when it is bounded and at most 100,
and 100 when the budget is `None` or exceeds 100. -/
theorem C9_fill_request_arguments (f : Fetch) (n : Nat) (b : Option String) (lim : Option Int) :
    (fillArgs (collect f n (initState b lim)).2).before
        = lastYieldFront (collect f n (initState b lim)).1 b
      ∧ (∀ l : Int, (collect f n (initState b lim)).2.limit = some l → l ≤ 100 →
          (fillArgs (collect f n (initState b lim)).2).limit = l)
      ∧ (∀ l : Int, (collect f n (initState b lim)).2.limit = some l → 100 < l →
          (fillArgs (collect f n (initState b lim)).2).limit = 100)
      ∧ ((collect f n (initState b lim)).2.limit = none →
          (fillArgs (collect f n (initState b lim)).2).limit = 100) := by
  refine ⟨?_, ?_, ?_, ?_⟩
  · show (collect f n (initState b lim)).2.front = _
    exact collect_front f n (initState b lim)
  · intro l hl hle
    simp [fillArgs, hl, not_lt.mpr hle]
  · intro l hl hgt
    simp [fillArgs, hl, hgt]
  · intro hl
    simp [fillArgs, hl]

/-- C9 (witness): on the one-entry stub with an initial cursor "7" and
budget 50, after one yielded entry the next request would carry cursor
"3" (the last yielded id) and page size 49 (the remaining budget). -/
theorem C9_fill_request_arguments_witness :
    (fillArgs (collect smallFetch9 1 (initState (some "7") (some 50))).2).before
        = lastYieldFront (collect smallFetch9 1 (initState (some "7") (some 50))).1 (some "7")
      ∧ (fillArgs (collect smallFetch9 1 (initState (some "7") (some 50))).2).limit = 49 :=
  ⟨(C9_fill_request_arguments smallFetch9 1 (some "7") (some 50)).1,
   (C9_fill_request_arguments smallFetch9 1 (some "7") (some 50)).2.1 49 (by decide) (by decide)⟩

/-! ### Dictionary and heap lemmas for the copy-on-write merge -/

theorem dictGet_set (d : Dict) (k v : Nat) : ∀ k',
    dictGet (dictSet d k v) k' = if k' = k then some v else dictGet d k' := by
  induction d with
  | nil => intro k'; simp [dictSet, dictGet]
  | cons p rest ih =>
    intro k'
    obtain ⟨k0, v0⟩ := p
    by_cases h0 : k0 = k
    · subst h0
      simp only [dictSet, if_pos rfl]
      by_cases hk : k' = k0 <;> simp [dictGet, hk]
    · simp only [dictSet, if_neg h0]
      by_cases hk0 : k' = k0
      · subst hk0
        simp [dictGet, h0]
      · simp [dictGet, hk0, ih]

theorem dictGet_dictUpdate (kvs : List (Nat × Nat)) : ∀ (d : Dict) (k : Nat),
    dictGet (dictUpdate d kvs) k
      = firstSome (dictGet (dictUpdate [] kvs) k) (dictGet d k) := by
  induction kvs with
  | nil => intro d k; simp [dictUpdate, dictGet, firstSome]
  | cons p rest ih =>
    intro d k
    have step : ∀ d0 : Dict, dictUpdate d0 (p :: rest) = dictUpdate (dictSet d0 p.1 p.2) rest :=
      fun _ => rfl
    rw [step d, step [], ih (dictSet d p.1 p.2) k, ih (dictSet [] p.1 p.2) k]
    rcases hx : dictGet (dictUpdate [] rest) k with _ | v
    · simp only [firstSome]
      rw [dictGet_set, dictGet_set]
      by_cases hk : k = p.1 <;> simp [hk, firstSome, dictGet]
    · simp [firstSome]

theorem heapGet_append_lt : ∀ (h t : Heap) (j : Nat), j < h.length →
    heapGet (h ++ t) j = heapGet h j := by
  intro h
  induction h with
  | nil => intro t j hj; simp at hj
  | cons d rest ih =>
    intro t j hj
    cases j with
    | zero => rfl
    | succ j => exact ih t j (by simpa using hj)

theorem heapGet_append_self : ∀ (h : Heap) (d : Dict), heapGet (h ++ [d]) h.length = d := by
  intro h
  induction h with
  | nil => intro d; rfl
  | cons d0 rest ih => intro d; simpa using ih d

theorem mergeIn_len (h : Heap) (addr : Nat) (new : List (Nat × Nat)) :
    h.length ≤ (mergeIn h addr new).1.length := by
  unfold mergeIn
  split
  · exact le_refl _
  · simp

theorem mergeIn_get_lt (h : Heap) (addr : Nat) (new : List (Nat × Nat)) (j : Nat)
    (hj : j < h.length) : heapGet (mergeIn h addr new).1 j = heapGet h j := by
  unfold mergeIn
  split
  · rfl
  · exact heapGet_append_lt h _ j hj

theorem mergeIn_addr_lt (h : Heap) (addr : Nat) (new : List (Nat × Nat))
    (ha : addr < h.length) : (mergeIn h addr new).2 < (mergeIn h addr new).1.length := by
  unfold mergeIn
  split
  · exact ha
  · simp

theorem mergeIn_get_self (h : Heap) (addr : Nat) (new : List (Nat × Nat)) :
    heapGet (mergeIn h addr new).1 (mergeIn h addr new).2
      = dictUpdate (heapGet h addr) new := by
  unfold mergeIn
  split
  next he => rw [he]; rfl
  · exact heapGet_append_self h _

theorem goodState_init (b : Option String) (lim : Option Int) : GoodState (initState b lim) := by
  refine ⟨?_, ?_, ?_⟩ <;> simp [initState]

theorem fill_good (f : Fetch) (s : IterState) (h : GoodState s) : GoodState (fill f s) := by
  obtain ⟨h1, h2, h3⟩ := h
  refine ⟨?_, ?_, ?_⟩
  · exact lt_of_lt_of_le (mergeIn_addr_lt _ _ _ h1)
      (le_trans (mergeIn_len _ _ _) (mergeIn_len _ _ _))
  · exact lt_of_lt_of_le
      (mergeIn_addr_lt _ _ _ (lt_of_lt_of_le h2 (mergeIn_len _ _ _)))
      (mergeIn_len _ _ _)
  · exact mergeIn_addr_lt _ _ _
      (lt_of_lt_of_le h3 (le_trans (mergeIn_len _ _ _) (mergeIn_len _ _ _)))

theorem fill_usersDict (f : Fetch) (s : IterState) (h : GoodState s) :
    usersDict (fill f s)
      = dictUpdate (usersDict s) (f s.fetchCount (fillArgs s)).users := by
  obtain ⟨h1, _, _⟩ := h
  show heapGet (fill f s).heap (fill f s).usersAddr = _
  rw [show (fill f s).heap = (mergeIn (mergeIn (mergeIn s.heap s.usersAddr
        (f s.fetchCount (fillArgs s)).users).1 s.webhooksAddr
        (f s.fetchCount (fillArgs s)).webhooks).1 s.integrationsAddr
        (f s.fetchCount (fillArgs s)).integrations).1 from rfl,
      show (fill f s).usersAddr = (mergeIn s.heap s.usersAddr
        (f s.fetchCount (fillArgs s)).users).2 from rfl]
  rw [mergeIn_get_lt _ _ _ _
        (lt_of_lt_of_le (mergeIn_addr_lt _ _ _ h1) (mergeIn_len _ _ _)),
      mergeIn_get_lt _ _ _ _ (mergeIn_addr_lt _ _ _ h1)]
  exact mergeIn_get_self _ _ _

theorem fill_webhooksDict (f : Fetch) (s : IterState) (h : GoodState s) :
    webhooksDict (fill f s)
      = dictUpdate (webhooksDict s) (f s.fetchCount (fillArgs s)).webhooks := by
  obtain ⟨_, h2, _⟩ := h
  show heapGet (fill f s).heap (fill f s).webhooksAddr = _
  rw [show (fill f s).heap = (mergeIn (mergeIn (mergeIn s.heap s.usersAddr
        (f s.fetchCount (fillArgs s)).users).1 s.webhooksAddr
        (f s.fetchCount (fillArgs s)).webhooks).1 s.integrationsAddr
        (f s.fetchCount (fillArgs s)).integrations).1 from rfl,
      show (fill f s).webhooksAddr = (mergeIn (mergeIn s.heap s.usersAddr
        (f s.fetchCount (fillArgs s)).users).1 s.webhooksAddr
        (f s.fetchCount (fillArgs s)).webhooks).2 from rfl]
  rw [mergeIn_get_lt _ _ _ _
        (mergeIn_addr_lt _ _ _ (lt_of_lt_of_le h2 (mergeIn_len _ _ _))),
      mergeIn_get_self _ _ _,
      mergeIn_get_lt _ _ _ _ h2]
  rfl

theorem fill_integrationsDict (f : Fetch) (s : IterState) (h : GoodState s) :
    integrationsDict (fill f s)
      = dictUpdate (integrationsDict s) (f s.fetchCount (fillArgs s)).integrations := by
  obtain ⟨_, _, h3⟩ := h
  show heapGet (fill f s).heap (fill f s).integrationsAddr = _
  rw [show (fill f s).heap = (mergeIn (mergeIn (mergeIn s.heap s.usersAddr
        (f s.fetchCount (fillArgs s)).users).1 s.webhooksAddr
        (f s.fetchCount (fillArgs s)).webhooks).1 s.integrationsAddr
        (f s.fetchCount (fillArgs s)).integrations).1 from rfl,
      show (fill f s).integrationsAddr = (mergeIn (mergeIn (mergeIn s.heap s.usersAddr
        (f s.fetchCount (fillArgs s)).users).1 s.webhooksAddr
        (f s.fetchCount (fillArgs s)).webhooks).1 s.integrationsAddr
        (f s.fetchCount (fillArgs s)).integrations).2 from rfl]
  rw [mergeIn_get_self _ _ _,
      mergeIn_get_lt _ _ _ _ (lt_of_lt_of_le h3 (mergeIn_len _ _ _)),
      mergeIn_get_lt _ _ _ _ h3]
  rfl

theorem fill_frame (f : Fetch) (s : IterState) (j : Nat) (hj : j < s.heap.length) :
    heapGet (fill f s).heap j = heapGet s.heap j := by
  rw [show (fill f s).heap = (mergeIn (mergeIn (mergeIn s.heap s.usersAddr
        (f s.fetchCount (fillArgs s)).users).1 s.webhooksAddr
        (f s.fetchCount (fillArgs s)).webhooks).1 s.integrationsAddr
        (f s.fetchCount (fillArgs s)).integrations).1 from rfl]
  rw [mergeIn_get_lt _ _ _ j
        (lt_of_lt_of_le hj (le_trans (mergeIn_len _ _ _) (mergeIn_len _ _ _))),
      mergeIn_get_lt _ _ _ j (lt_of_lt_of_le hj (mergeIn_len _ _ _)),
      mergeIn_get_lt _ _ _ j hj]

/-! ### Claim C4 -/

/-- C4 (confirmed): after a second fetch, each of the three published
side mappings (`users`, `webhooks`, `integrations`) holds exactly the
objects accumulated from both pages (an initially empty dict updated
with the first page's objects and then the second's; pointwise, a key
resolves to the second page's object when present there, else the
first page's); and the mapping object published after the first fetch
is left unchanged by the second fetch's merge — `copy.copy` builds a
fresh mapping before mutation. -/
theorem C4_two_fetch_union_and_copy_on_write (f : Fetch) (b : Option String)
    (lim : Option Int) :
    (usersDict (fill f (fill f (initState b lim)))
        = dictUpdate (dictUpdate [] (f 0 (fillArgs (initState b lim))).users)
            (f 1 (fillArgs (fill f (initState b lim)))).users
      ∧ (∀ k, dictGet (usersDict (fill f (fill f (initState b lim)))) k
          = firstSome
              (dictGet (dictUpdate [] (f 1 (fillArgs (fill f (initState b lim)))).users) k)
              (dictGet (dictUpdate [] (f 0 (fillArgs (initState b lim))).users) k))
      ∧ heapGet (fill f (fill f (initState b lim))).heap (fill f (initState b lim)).usersAddr
          = heapGet (fill f (initState b lim)).heap (fill f (initState b lim)).usersAddr)
    ∧ (webhooksDict (fill f (fill f (initState b lim)))
        = dictUpdate (dictUpdate [] (f 0 (fillArgs (initState b lim))).webhooks)
            (f 1 (fillArgs (fill f (initState b lim)))).webhooks
      ∧ (∀ k, dictGet (webhooksDict (fill f (fill f (initState b lim)))) k
          = firstSome
              (dictGet (dictUpdate [] (f 1 (fillArgs (fill f (initState b lim)))).webhooks) k)
              (dictGet (dictUpdate [] (f 0 (fillArgs (initState b lim))).webhooks) k))
      ∧ heapGet (fill f (fill f (initState b lim))).heap (fill f (initState b lim)).webhooksAddr
          = heapGet (fill f (initState b lim)).heap (fill f (initState b lim)).webhooksAddr)
    ∧ (integrationsDict (fill f (fill f (initState b lim)))
        = dictUpdate (dictUpdate [] (f 0 (fillArgs (initState b lim))).integrations)
            (f 1 (fillArgs (fill f (initState b lim)))).integrations
      ∧ (∀ k, dictGet (integrationsDict (fill f (fill f (initState b lim)))) k
          = firstSome
              (dictGet
                (dictUpdate [] (f 1 (fillArgs (fill f (initState b lim)))).integrations) k)
              (dictGet (dictUpdate [] (f 0 (fillArgs (initState b lim))).integrations) k))
      ∧ heapGet (fill f (fill f (initState b lim))).heap
            (fill f (initState b lim)).integrationsAddr
          = heapGet (fill f (initState b lim)).heap
            (fill f (initState b lim)).integrationsAddr) := by
  have g0 := goodState_init b lim
  have g1 := fill_good f _ g0
  have hu1 : usersDict (fill f (initState b lim))
      = dictUpdate [] (f 0 (fillArgs (initState b lim))).users := by
    rw [fill_usersDict f _ g0]
    rfl
  have hw1 : webhooksDict (fill f (initState b lim))
      = dictUpdate [] (f 0 (fillArgs (initState b lim))).webhooks := by
    rw [fill_webhooksDict f _ g0]
    rfl
  have hi1 : integrationsDict (fill f (initState b lim))
      = dictUpdate [] (f 0 (fillArgs (initState b lim))).integrations := by
    rw [fill_integrationsDict f _ g0]
    rfl
  have hu2 : usersDict (fill f (fill f (initState b lim)))
      = dictUpdate (dictUpdate [] (f 0 (fillArgs (initState b lim))).users)
          (f 1 (fillArgs (fill f (initState b lim)))).users := by
    rw [fill_usersDict f _ g1, hu1]
    rfl
  have hw2 : webhooksDict (fill f (fill f (initState b lim)))
      = dictUpdate (dictUpdate [] (f 0 (fillArgs (initState b lim))).webhooks)
          (f 1 (fillArgs (fill f (initState b lim)))).webhooks := by
    rw [fill_webhooksDict f _ g1, hw1]
    rfl
  have hi2 : integrationsDict (fill f (fill f (initState b lim)))
      = dictUpdate (dictUpdate [] (f 0 (fillArgs (initState b lim))).integrations)
          (f 1 (fillArgs (fill f (initState b lim)))).integrations := by
    rw [fill_integrationsDict f _ g1, hi1]
    rfl
  refine ⟨⟨hu2, ?_, fill_frame f _ _ g1.1⟩,
          ⟨hw2, ?_, fill_frame f _ _ g1.2.1⟩,
          ⟨hi2, ?_, fill_frame f _ _ g1.2.2⟩⟩
  · intro k
    rw [hu2, dictGet_dictUpdate]
  · intro k
    rw [hw2, dictGet_dictUpdate]
  · intro k
    rw [hi2, dictGet_dictUpdate]

/-! ### Helper lemmas about the deserializers -/

theorem isErr_ok {α : Type} (a : α) : isErr (Except.ok a : Except String α) = false := rfl

theorem isErr_exBind {α β : Type} (x : Except String α) (g : α → Except String β) :
    isErr (exBind x g) = true
      ↔ (isErr x = true ∨ ∃ a, x = .ok a ∧ isErr (g a) = true) := by
  cases x <;> simp [exBind, isErr]

theorem pyKey_err_iff (p : List (String × JVal)) (k : String) :
    isErr (pyKey p k) = true ↔ alookup p k = none := by
  unfold pyKey
  cases h : alookup p k <;> simp [isErr]

theorem pyKey_ok_exists (p : List (String × JVal)) (k : String) :
    (∃ v, pyKey p k = .ok v) ↔ ¬ alookup p k = none := by
  unfold pyKey
  cases h : alookup p k <;> simp

theorem assocInt_eq_none : ∀ (l : List (Int × InfoClass)) (t : Int),
    t ∉ l.map Prod.fst → assocInt l t = none := by
  intro l
  induction l with
  | nil => intro t _; rfl
  | cons p rest ih =>
    intro t ht
    obtain ⟨k0, v⟩ := p
    simp only [List.map_cons, List.mem_cons, not_or] at ht
    obtain ⟨h1, h2⟩ := ht
    simp only [assocInt]
    rw [if_neg h1]
    exact ih t h2

/-! ### Claim C5 -/

/-- C5 (confirmed): every action-type discriminator registered by a
`register_audit_log_entry_info` decoration resolves through
`get_entry_info_entity` to its registered variant class, and entry
deserialization routes the options block to that variant (the spec's
example: action type 74 with a `channel_id`/`message_id` block decodes
as the message-pin variant); every unregistered discriminator falls
back to `UnrecognisedAuditLogEntryInfo`, whose deserialization keeps
every raw key of the payload verbatim. -/
theorem C5_registry_routing_and_fallback :
    (∀ tc ∈ entry_info_types, get_entry_info_entity tc.1 = tc.2)
      ∧ (∀ t : Int, t ∉ entry_info_types.map Prod.fst →
          get_entry_info_entity t = InfoClass.unrecognised)
      ∧ (∃ e, AuditLogEntry.deserialize pinPayload = Except.ok e
          ∧ e.options = some (EntryInfo.messagePin
              (Snowflake.deserialize (JVal.str "123"))
              (Snowflake.deserialize (JVal.str "456"))))
      ∧ (∀ kvs, deserializeInfo InfoClass.unrecognised kvs
          = Except.ok (EntryInfo.unrecognised kvs)) := by
  refine ⟨?_, ?_, ⟨_, rfl, rfl⟩, fun kvs => rfl⟩
  · intro tc htc
    fin_cases htc <;> rfl
  · intro t ht
    unfold get_entry_info_entity
    rw [assocInt_eq_none entry_info_types t ht]

/-- C5 (witness): registered discriminator 74 resolves to the
message-pin class; unregistered 99 falls back. -/
theorem C5_registry_routing_and_fallback_witness :
    get_entry_info_entity 74 = InfoClass.messagePin
      ∧ get_entry_info_entity 99 = InfoClass.unrecognised :=
  ⟨C5_registry_routing_and_fallback.1 (74, InfoClass.messagePin) (by decide),
   C5_registry_routing_and_fallback.2.1 99 (by decide)⟩

/-! ### Claim C6 -/

/-- C6 (confirmed): for every change payload (whatever the key), an
absent or null `new_value`/`old_value` deserializes to `None` — the
converter is never applied to a null value — and when a converter is
registered for the resolved key, that same converter is applied
independently to each non-null value (`convApply` is exactly this
field behaviour). -/
theorem C6_change_converter_null_behaviour (p : List (String × JVal)) (rawKey : JVal)
    (h : alookup p "key" = some rawKey) :
    AuditLogChange.deserialize p
      = Except.ok { key := tryCastChangeKey rawKey
                    new_value := convApply (tryCastChangeKey rawKey) (pyGet p "new_value")
                    old_value := convApply (tryCastChangeKey rawKey) (pyGet p "old_value") } := by
  have hk : pyKey p "key" = Except.ok rawKey := by unfold pyKey; rw [h]
  unfold AuditLogChange.deserialize
  rw [hk]
  dsimp only
  unfold convApply
  cases hc : convLookup (tryCastChangeKey rawKey) <;> simp only [hc]

/-- C6 (witness): the spec's color example — `old_value` 0 and
`new_value` 16711680 both pass through the registered color converter;
with the converter applied to each value independently. -/
theorem C6_change_converter_null_behaviour_witness :
    AuditLogChange.deserialize colorChangePayload
      = Except.ok { key := ChangeKey.known AuditLogChangeKey.COLOR
                    new_value := CVal.colorVal (JVal.num 16711680)
                    old_value := CVal.colorVal (JVal.num 0) } :=
  C6_change_converter_null_behaviour colorChangePayload (JVal.str "color") rfl

/-! ### Claim C7 -/

/-- C7 (confirmed): the registered `max_uses` converter maps a zero raw
value to infinity and a positive raw value to its integer, while the
registered `max_age` converter maps a zero raw value to `None` and a
positive raw value to a duration of that many seconds — the two zero
conventions are distinct values (`inf` is not an integer, `None` is
not a zero-second duration). -/
theorem C7_max_uses_max_age_asymmetry :
    AUDIT_LOG_ENTRY_CONVERTERS AuditLogChangeKey.MAX_USES = some maxUsesConv
      ∧ AUDIT_LOG_ENTRY_CONVERTERS AuditLogChangeKey.MAX_AGE = some maxAgeConv
      ∧ maxUsesConv (JVal.num 0) = CVal.inf
      ∧ (∀ n : Int, 0 < n → maxUsesConv (JVal.num n) = CVal.intVal n)
      ∧ maxAgeConv (JVal.num 0) = CVal.pynone
      ∧ (∀ n : Int, 0 < n → maxAgeConv (JVal.num n) = CVal.tdSeconds n)
      ∧ CVal.inf ≠ CVal.intVal 0
      ∧ CVal.pynone ≠ CVal.tdSeconds 0 := by
  refine ⟨rfl, rfl, rfl, ?_, rfl, ?_, by simp, by simp⟩
  · intro n hn
    simp [maxUsesConv, pyInt, hn]
  · intro n hn
    simp [maxAgeConv, pyInt, hn]

/-- C7 (witness): the converters evaluated at 3. -/
theorem C7_max_uses_max_age_asymmetry_witness :
    maxUsesConv (JVal.num 3) = CVal.intVal 3
      ∧ maxAgeConv (JVal.num 3) = CVal.tdSeconds 3 :=
  ⟨C7_max_uses_max_age_asymmetry.2.2.2.1 3 (by decide),
   C7_max_uses_max_age_asymmetry.2.2.2.2.2.1 3 (by decide)⟩

/-! ### Error characterisation lemmas for C8 -/

theorem exBind_ok (a : α) (g : α → Except String β) : exBind (Except.ok a) g = g a := rfl

theorem exBind_ok_inv {α β : Type} (x : Except String α) (g : α → Except String β) (b : β)
    (h : exBind x g = .ok b) : ∃ a, x = .ok a ∧ g a = .ok b := by
  cases x with
  | error e => simp [exBind] at h
  | ok a => exact ⟨a, rfl, h⟩

theorem ok_exists_iff {α : Type} (x : Except String α) :
    (∃ a, x = Except.ok a) ↔ ¬ isErr x = true := by
  cases x <;> simp [isErr]

theorem isErr_map_some {α β : Type} (x : Except String α) (g : α → β) :
    isErr (x.map g) = isErr x := by
  cases x <;> simp [isErr, Except.map]

theorem changeDeser_err (kvs : List (String × JVal)) :
    isErr (AuditLogChange.deserialize kvs) = true ↔ alookup kvs "key" = none := by
  unfold AuditLogChange.deserialize pyKey
  cases h : alookup kvs "key" with
  | none => simp [isErr]
  | some v =>
    cases hc : convLookup (tryCastChangeKey v) <;> simp [hc, isErr]

theorem changesDeser_err : ∀ xs : List JVal,
    isErr (deserializeChanges xs) = true
      ↔ ∃ x ∈ xs, alookup (objFields x) "key" = none := by
  intro xs
  induction xs with
  | nil => simp [deserializeChanges, isErr]
  | cons v rest ih =>
    constructor
    · intro h
      rcases hc : AuditLogChange.deserialize (objFields v) with e1 | c
      · exact ⟨v, List.mem_cons_self v rest, (changeDeser_err _).mp (by rw [hc]; rfl)⟩
      · rcases hr : deserializeChanges rest with e2 | cs
        · obtain ⟨x, hx, hk⟩ := ih.mp (by rw [hr]; rfl)
          exact ⟨x, List.mem_cons_of_mem v hx, hk⟩
        · simp only [deserializeChanges, hc, hr, exBind] at h
          simp [isErr] at h
    · rintro ⟨x, hx, hk⟩
      rcases List.mem_cons.mp hx with rfl | hx2
      · have h1 : isErr (AuditLogChange.deserialize (objFields x)) = true :=
          (changeDeser_err _).mpr hk
        simp only [deserializeChanges]
        rcases hc : AuditLogChange.deserialize (objFields x) with e1 | c
        · simp [exBind, isErr]
        · rw [hc] at h1
          simp [isErr] at h1
      · have h1 : isErr (deserializeChanges rest) = true := ih.mpr ⟨x, hx2, hk⟩
        simp only [deserializeChanges]
        rcases hc : AuditLogChange.deserialize (objFields v) with e1 | c
        · simp [exBind, isErr]
        · rcases hr : deserializeChanges rest with e2 | cs
          · simp [hc, hr, exBind, isErr]
          · rw [hr] at h1
            simp [isErr] at h1

theorem infoDeser_err (c : InfoClass) (kvs : List (String × JVal)) :
    isErr (deserializeInfo c kvs) = true
      ↔ ∃ k ∈ requiredInfoFields c, alookup kvs k = none := by
  cases c <;>
    simp [deserializeInfo, requiredInfoFields, isErr_exBind, pyKey_err_iff,
      ok_exists_iff, isErr_ok, exists_and_right] <;>
    tauto

/-! ### Claim C8 -/

/-- C8 (counterexample): a payload that has both `id` and `user_id`
but lacks `action_type` still fails with a lookup error — the claim's
"exactly id or user_id" list of required fields is incomplete, since
`payload["action_type"]` is subscripted first. -/
theorem C8_counterexample :
    AuditLogEntry.deserialize missingActionPayload = Except.error "action_type" := rfl

/-- `objFields` on an object literal. -/
theorem objFields_obj (kvs : List (String × JVal)) : objFields (JVal.obj kvs) = kvs := rfl

/-- C8 (amended): for well-shaped payloads (a present `changes` value
is an array of objects, a present `options` value is null or an
object), `AuditLogEntry.deserialize` fails with a lookup error exactly
when a required field is absent: the entry's `action_type`, `user_id`
or `id`, the `key` of some change element, or — when a non-null
`options` block is present — a field the registered variant for the
action type requires.  In particular an unrecognised `action_type` or
change key never causes failure: the raw value is kept and options
decoding falls back to the unrecognised variant, which requires no
field. -/
theorem C8_lookup_failure_characterisation (p : List (String × JVal))
    (hchg : ∀ v, alookup p "changes" = some v →
        ∃ xs, v = JVal.arr xs ∧ ∀ x ∈ xs, ∃ kvs, x = JVal.obj kvs)
    (hopt : ∀ v, alookup p "options" = some v →
        v = JVal.null ∨ ∃ kvs, v = JVal.obj kvs) :
    isErr (AuditLogEntry.deserialize p) = true
      ↔ (alookup p "action_type" = none ∨ alookup p "user_id" = none
          ∨ alookup p "id" = none
          ∨ (∃ x ∈ changesItems p, alookup (objFields x) "key" = none)
          ∨ (pyGet p "options" ≠ JVal.null
              ∧ ∃ k ∈ requiredInfoFields
                    (classOfAction (tryCastEventType (pyGet p "action_type"))),
                  alookup (objFields (pyGet p "options")) k = none)) := by
  clear hchg
  cases hat : alookup p "action_type" with
  | none =>
    have hpk : pyKey p "action_type" = .error "action_type" := by unfold pyKey; rw [hat]
    simp [AuditLogEntry.deserialize, hpk, exBind, isErr]
  | some rawA =>
    have hpk : pyKey p "action_type" = .ok rawA := by unfold pyKey; rw [hat]
    have hpg : pyGet p "action_type" = rawA := by unfold pyGet; rw [hat]
    have hnull : pyGet p "options" = JVal.null →
        (isErr (AuditLogEntry.deserialize p) = true
          ↔ ((some rawA : Option JVal) = none ∨ alookup p "user_id" = none
              ∨ alookup p "id" = none
              ∨ (∃ x ∈ changesItems p, alookup (objFields x) "key" = none)
              ∨ (pyGet p "options" ≠ JVal.null
                  ∧ ∃ k ∈ requiredInfoFields
                        (classOfAction (tryCastEventType (pyGet p "action_type"))),
                      alookup (objFields (pyGet p "options")) k = none))) := by
      intro ho
      cases hch : isErr (deserializeChanges (changesItems p)) with
      | true =>
        have hA := (changesDeser_err (changesItems p)).mp hch
        simp [AuditLogEntry.deserialize, hpk, exBind_ok, ho, isErr_exBind, hch, hA]
      | false =>
        have hA : ¬ (∃ x ∈ changesItems p, alookup (objFields x) "key" = none) := by
          intro hx
          rw [(changesDeser_err (changesItems p)).mpr hx] at hch
          cases hch
        simp only [AuditLogEntry.deserialize, hpk, exBind_ok, ho]
        simp [isErr_exBind, hch, hA, ho, ok_exists_iff, isErr_ok, pyKey_err_iff,
          exists_and_right]
        by_cases hu : alookup p "user_id" = none <;> simp [hu]
    rcases hoo : alookup p "options" with _ | vOpt
    · exact hnull (by unfold pyGet; rw [hoo])
    · rcases hopt vOpt hoo with rfl | ⟨kvs, rfl⟩
      · exact hnull (by unfold pyGet; rw [hoo])
      · have ho : pyGet p "options" = JVal.obj kvs := by unfold pyGet; rw [hoo]
        cases hio : isErr (deserializeInfo
            (classOfAction (tryCastEventType rawA)) kvs) with
        | true =>
          have hB := (infoDeser_err (classOfAction (tryCastEventType rawA)) kvs).mp hio
          simp [AuditLogEntry.deserialize, hpk, exBind_ok, ho, objFields_obj,
            isErr_exBind, isErr_map_some, hio, hpg, hB]
        | false =>
          have hB : ¬ (∃ k ∈ requiredInfoFields (classOfAction (tryCastEventType rawA)),
              alookup kvs k = none) := by
            intro hk
            rw [(infoDeser_err (classOfAction (tryCastEventType rawA)) kvs).mpr hk] at hio
            cases hio
          cases hch : isErr (deserializeChanges (changesItems p)) with
          | true =>
            have hA := (changesDeser_err (changesItems p)).mp hch
            simp [AuditLogEntry.deserialize, hpk, exBind_ok, ho, objFields_obj,
              isErr_exBind, isErr_map_some, hio, hch, hA, hpg, hB, ok_exists_iff,
              isErr_ok, exists_and_right]
          | false =>
            have hA : ¬ (∃ x ∈ changesItems p, alookup (objFields x) "key" = none) := by
              intro hx
              rw [(changesDeser_err (changesItems p)).mpr hx] at hch
              cases hch
            simp only [AuditLogEntry.deserialize, hpk, exBind_ok, ho]
            simp [isErr_exBind, isErr_map_some, hio, hch, hA, hB, hpg, ho, objFields_obj,
              ok_exists_iff, isErr_ok, pyKey_err_iff, exists_and_right]
            by_cases hu : alookup p "user_id" = none <;> simp [hu]

/-- C8 (witness): the amended characterisation applied to the payload
missing `action_type` — it fails. -/
theorem C8_lookup_failure_characterisation_witness :
    isErr (AuditLogEntry.deserialize missingActionPayload) = true :=
  (C8_lookup_failure_characterisation missingActionPayload
    (fun _ hv => nomatch hv) (fun _ hv => nomatch hv)).mpr (Or.inl rfl)

/-! ### Claim C10 -/

theorem entry_ok_target (p : List (String × JVal)) (e : AuditLogEntry)
    (h : AuditLogEntry.deserialize p = Except.ok e) : e.target_id = targetOf p := by
  unfold AuditLogEntry.deserialize at h
  obtain ⟨a1, -, h⟩ := exBind_ok_inv _ _ _ h
  obtain ⟨a2, -, h⟩ := exBind_ok_inv _ _ _ h
  obtain ⟨a3, -, h⟩ := exBind_ok_inv _ _ _ h
  obtain ⟨a4, -, h⟩ := exBind_ok_inv _ _ _ h
  obtain ⟨a5, -, h⟩ := exBind_ok_inv _ _ _ h
  injection h with h
  subst h
  rfl

/-- C10 (counterexample): a payload in which `target_id` is present
and maps to JSON null deserializes with `target_id` equal to `None`
even though the key is present — refuting "only an absent key yields
None". -/
theorem C10_counterexample :
    (∃ e, AuditLogEntry.deserialize nullTargetPayload = Except.ok e
        ∧ e.target_id = TargetId.pyNone)
      ∧ alookup nullTargetPayload "target_id" = some JVal.null :=
  ⟨⟨_, rfl, rfl⟩, rfl⟩

/-- C10 (amended): whenever `AuditLogEntry.deserialize` succeeds, a
`target_id` key present with a falsy non-null value (such as the
empty string) is kept as that raw value — neither parsed as a
Snowflake nor normalized to `None`; and `target_id` is `None` exactly
when the key is absent or maps to JSON null. -/
theorem C10_falsy_target_id_kept_raw (p : List (String × JVal)) (e : AuditLogEntry)
    (h : AuditLogEntry.deserialize p = Except.ok e) :
    (∀ v, alookup p "target_id" = some v → truthy v = false → v ≠ JVal.null →
        e.target_id = TargetId.raw v)
      ∧ (e.target_id = TargetId.pyNone ↔ pyGet p "target_id" = JVal.null)
      ∧ (alookup p "target_id" = none → e.target_id = TargetId.pyNone) := by
  have ht := entry_ok_target p e h
  refine ⟨?_, ?_, ?_⟩
  · intro v hv htr hnn
    have hg : pyGet p "target_id" = v := by unfold pyGet; rw [hv]
    rw [ht]
    unfold targetOf
    rw [hg, htr]
    cases v <;> simp_all
  · rw [ht]
    unfold targetOf
    rcases hg : pyGet p "target_id" with _ | n | s | b | xs | kvs
    · simp [truthy]
    · by_cases hn0 : n = 0
      · subst hn0; simp [truthy]
      · simp [truthy, hn0]
    · by_cases hs0 : s = ""
      · subst hs0; simp [truthy]
      · simp [truthy, hs0]
    · cases b <;> simp [truthy]
    · rcases xs with _ | ⟨x, xs⟩ <;> simp [truthy]
    · rcases kvs with _ | ⟨kv, kvs⟩ <;> simp [truthy]
  · intro hn
    have hg : pyGet p "target_id" = JVal.null := by unfold pyGet; rw [hn]
    rw [ht]
    unfold targetOf
    rw [hg]
    simp [truthy]

/-- C10 (witness): the amended theorem applied to the payload whose
`target_id` is the (falsy, non-null) empty string: the raw empty
string is kept. -/
theorem C10_falsy_target_id_kept_raw_witness :
    ∃ e, AuditLogEntry.deserialize emptyTargetPayload = Except.ok e
      ∧ e.target_id = TargetId.raw (JVal.str "") :=
  ⟨_, rfl, (C10_falsy_target_id_kept_raw emptyTargetPayload _ rfl).1
    (JVal.str "") rfl rfl (by simp)⟩
